import Mathlib

/-!
Verification of the terminal cell-grid rendering and navigation engine of the
pixel-perfect repository, shallowly embedded from src/generate.js and
src/run.js.  Pure fragments of the JavaScript are translated to Lean
definitions; stateful handlers become explicit state-transition functions.
JavaScript numbers are modelled as Int (or Nat where the source value is
manifestly a non-negative count), byte arrays as functions from index to byte,
and strings as Lean strings or lists of characters.
-/

/-! ## Cell compositor (Generator.imageToData, src/generate.js lines 41-95) -/

/-- Raw pixel buffer handed to Generator.imageToData: width, height, channel
count and the row-major interleaved byte array, modelled as a function from
byte index to byte value. -/
structure PixelBuffer where
  width : Nat
  height : Nat
  channels : Nat
  data : Nat → Nat

/-- Glyph written in the upper-half-block cases of imageToData. -/
def UPPER_HALF_BLOCK : Char := '▀'

/-- Glyph written in the lower-half-block case of imageToData. -/
def LOWER_HALF_BLOCK : Char := '▄'

/-- One emitted terminal cell, as pushed by imageToData. -/
structure Cell where
  x : Nat
  y : Nat
  char : Char
  ansi : String
deriving DecidableEq

/-- Truecolor foreground escape string, as interpolated in imageToData. -/
def fgStyle (r g b : Nat) : String :=
  "\x1b[38;2;" ++ toString r ++ ";" ++ toString g ++ ";" ++ toString b ++ "m"

/-- Truecolor background escape string, as interpolated in imageToData. -/
def bgStyle (r g b : Nat) : String :=
  "\x1b[48;2;" ++ toString r ++ ";" ++ toString g ++ ";" ++ toString b ++ "m"

/-- Byte index of pixel (x, y): (y * width + x) * channels. -/
def pixelIndex (b : PixelBuffer) (x y : Nat) : Nat :=
  (y * b.width + x) * b.channels

/-- Alpha sample of pixel (x, y): the fourth channel when channels is 4,
otherwise the constant 255, exactly as in imageToData. -/
def pixelAlpha (b : PixelBuffer) (x y : Nat) : Nat :=
  if b.channels = 4 then b.data (pixelIndex b x y + 3) else 255

/-- Foreground escape built from the RGB bytes of pixel (x, y). -/
def pixelFg (b : PixelBuffer) (x y : Nat) : String :=
  fgStyle (b.data (pixelIndex b x y)) (b.data (pixelIndex b x y + 1))
    (b.data (pixelIndex b x y + 2))

/-- Background escape built from the RGB bytes of pixel (x, y). -/
def pixelBg (b : PixelBuffer) (x y : Nat) : String :=
  bgStyle (b.data (pixelIndex b x y)) (b.data (pixelIndex b x y + 1))
    (b.data (pixelIndex b x y + 2))

/-- Body of the double loop of imageToData for column x and upper row y (an
even row): the four alpha cases.  Returns the pushed cell, or none in the
fourth case (char is a space and the cell is not pushed). -/
def composeAt (b : PixelBuffer) (x y : Nat) : Option Cell :=
  let upperA := pixelAlpha b x y
  let lowerA := pixelAlpha b x (y + 1)
  if 128 ≤ upperA ∧ 128 ≤ lowerA then
    some ⟨x, y / 2, UPPER_HALF_BLOCK, pixelFg b x y ++ pixelBg b x (y + 1)⟩
  else if 128 ≤ upperA then
    some ⟨x, y / 2, UPPER_HALF_BLOCK, pixelFg b x y⟩
  else if 128 ≤ lowerA then
    some ⟨x, y / 2, LOWER_HALF_BLOCK, pixelFg b x (y + 1)⟩
  else
    none

/-- The maxCells constant of imageToData. -/
def maxCells : Nat := 100000

/-- Iteration order of the double loop of imageToData: for each even upper row
y = 2k (the loop runs y = 0, 2, ... while y < height - 1, hence height / 2
pairs), for each column x in 0 .. width - 1, the position (x, y). -/
def pairPositions (width height : Nat) : List (Nat × Nat) :=
  (List.range (height / 2)).flatMap fun k =>
    (List.range width).map fun x => (x, 2 * k)

/-- Cell accumulation of imageToData: cells are pushed in iteration order and,
immediately after the push that brings cellCount up to maxCells, the function
returns.  cellCount is the number of cells already pushed. -/
def collectCells (step : Nat × Nat → Option Cell) :
    List (Nat × Nat) → Nat → List Cell
  | [], _ => []
  | p :: ps, cellCount =>
    match step p with
    | none => collectCells step ps cellCount
    | some cell =>
      if maxCells ≤ cellCount + 1 then [cell]
      else cell :: collectCells step ps (cellCount + 1)

/-- Generator.imageToData: the sparse cell list composed from a pixel
buffer. -/
def imageToData (b : PixelBuffer) : List Cell :=
  collectCells (fun p => composeAt b p.1 p.2) (pairPositions b.width b.height) 0

/-! ## Compositor lemmas -/

/-- The accumulation loop keeps the first maxCells - count cells of the full
filterMap stream: every push either continues or, at the ceiling, returns the
cells pushed so far. -/
theorem collectCells_eq_take (step : Nat × Nat → Option Cell) :
    ∀ (ps : List (Nat × Nat)) (count : Nat), count < maxCells →
      collectCells step ps count = (ps.filterMap step).take (maxCells - count) := by
  intro ps
  induction ps with
  | nil => intro count _; simp [collectCells]
  | cons p ps ih =>
    intro count hcount
    rw [collectCells, List.filterMap_cons]
    cases hstep : step p with
    | none => exact ih count hcount
    | some cell =>
      by_cases hge : maxCells ≤ count + 1
      · have h1 : maxCells - count = 1 := by omega
        simp [hge, h1]
      · have hlt : count + 1 < maxCells := by omega
        have hsub : maxCells - count = (maxCells - (count + 1)) + 1 := by omega
        simp only [hge, if_false, hsub, List.take_succ_cons, ih (count + 1) hlt]

/-- imageToData is the first maxCells cells of the untruncated stream. -/
theorem imageToData_eq_take (b : PixelBuffer) :
    imageToData b =
      ((pairPositions b.width b.height).filterMap
        (fun p => composeAt b p.1 p.2)).take maxCells := by
  have h := collectCells_eq_take (fun p => composeAt b p.1 p.2)
    (pairPositions b.width b.height) 0 (by simp [maxCells])
  simpa [imageToData] using h

/-- imageToData never emits more than maxCells cells. -/
theorem imageToData_length_le (b : PixelBuffer) :
    (imageToData b).length ≤ maxCells := by
  rw [imageToData_eq_take]
  simp [List.length_take]

/-- The pair-position list has height / 2 rows of width entries each. -/
theorem pairPositions_length (w h : Nat) :
    (pairPositions w h).length = (h / 2) * w := by
  simp [pairPositions, List.length_flatMap, Function.comp_def]

/-- When the candidate positions number at most maxCells, the truncation never
fires and imageToData is exactly the filterMap over all pair positions. -/
theorem imageToData_eq_filterMap (b : PixelBuffer)
    (hcap : b.width * (b.height / 2) ≤ maxCells) :
    imageToData b =
      (pairPositions b.width b.height).filterMap
        (fun p => composeAt b p.1 p.2) := by
  rw [imageToData_eq_take]
  apply List.take_of_length_le
  calc ((pairPositions b.width b.height).filterMap
          (fun p => composeAt b p.1 p.2)).length
      ≤ (pairPositions b.width b.height).length := List.length_filterMap_le _ _
    _ = (b.height / 2) * b.width := pairPositions_length _ _
    _ ≤ maxCells := by rw [Nat.mul_comm]; exact hcap

/-- Introduction form for membership in the pair-position list. -/
theorem pairPositions_mem_intro {w h x k : Nat} (hx : x < w) (hk : k < h / 2) :
    (x, 2 * k) ∈ pairPositions w h := by
  simp only [pairPositions, List.mem_flatMap, List.mem_map, List.mem_range]
  exact ⟨k, hk, x, hx, rfl⟩

/-- Elimination form for membership in the pair-position list. -/
theorem pairPositions_mem_elim {w h : Nat} {p : Nat × Nat}
    (hp : p ∈ pairPositions w h) :
    p.1 < w ∧ ∃ k, k < h / 2 ∧ p.2 = 2 * k := by
  simp only [pairPositions, List.mem_flatMap, List.mem_map, List.mem_range] at hp
  obtain ⟨k, hk, x, hx, rfl⟩ := hp
  exact ⟨hx, k, hk, rfl⟩

/-- A cell emitted for position (x, y) carries coordinates (x, y / 2). -/
theorem composeAt_coords {b : PixelBuffer} {x y : Nat} {c : Cell}
    (h : composeAt b x y = some c) : c.x = x ∧ c.y = y / 2 := by
  simp only [composeAt] at h
  split_ifs at h <;> (cases h; exact ⟨rfl, rfl⟩)

/-- A cell emitted for a both-opaque position has the upper-half-block
glyph. -/
theorem composeAt_char_of_opaque {b : PixelBuffer} {x y : Nat} {c : Cell}
    (hu : 128 ≤ pixelAlpha b x y) (hl : 128 ≤ pixelAlpha b x (y + 1))
    (h : composeAt b x y = some c) : c.char = UPPER_HALF_BLOCK := by
  simp only [composeAt, if_pos (And.intro hu hl)] at h
  cases h; rfl

/-- A filterMap along a list of always-some positions keeps every entry. -/
theorem length_filterMap_of_isSome {α β : Type} (f : α → Option β) :
    ∀ l : List α, (∀ a ∈ l, (f a).isSome) → (l.filterMap f).length = l.length := by
  intro l
  induction l with
  | nil => intro _; rfl
  | cons a l ih =>
    intro hall
    rw [List.filterMap_cons]
    cases hfa : f a with
    | none =>
      have := hall a (List.mem_cons_self a l)
      rw [hfa] at this
      cases this
    | some bb =>
      simp only [List.length_cons]
      rw [ih (fun a ha => hall a (List.mem_cons_of_mem _ ha))]

/-- C1: with the four opacity cases at column x and row pair (2k, 2k+1), the
compositor emits the corresponding upper/lower half-block cell, or no cell at
(x, k) when neither pixel is opaque; amended with the proviso that the
candidate cell count width * (height / 2) stays within the 100000-cell safety
ceiling, without which the truncation drops later positions. -/
theorem c1_compositor_cases (b : PixelBuffer)
    (_hC : b.channels = 3 ∨ b.channels = 4)
    (hcap : b.width * (b.height / 2) ≤ maxCells)
    (x k : Nat) (hx : x < b.width) (hk : 2 * k + 1 ≤ b.height - 1) :
    (128 ≤ pixelAlpha b x (2 * k) → 128 ≤ pixelAlpha b x (2 * k + 1) →
      (⟨x, k, UPPER_HALF_BLOCK, pixelFg b x (2 * k) ++ pixelBg b x (2 * k + 1)⟩ : Cell)
        ∈ imageToData b) ∧
    (128 ≤ pixelAlpha b x (2 * k) → ¬ 128 ≤ pixelAlpha b x (2 * k + 1) →
      (⟨x, k, UPPER_HALF_BLOCK, pixelFg b x (2 * k)⟩ : Cell) ∈ imageToData b) ∧
    (¬ 128 ≤ pixelAlpha b x (2 * k) → 128 ≤ pixelAlpha b x (2 * k + 1) →
      (⟨x, k, LOWER_HALF_BLOCK, pixelFg b x (2 * k + 1)⟩ : Cell) ∈ imageToData b) ∧
    (¬ 128 ≤ pixelAlpha b x (2 * k) → ¬ 128 ≤ pixelAlpha b x (2 * k + 1) →
      ∀ c ∈ imageToData b, ¬ (c.x = x ∧ c.y = k)) := by
  have hkdiv : k < b.height / 2 := by omega
  have hpos : (x, 2 * k) ∈ pairPositions b.width b.height :=
    pairPositions_mem_intro hx hkdiv
  have hhalf : 2 * k / 2 = k := by omega
  rw [imageToData_eq_filterMap b hcap]
  refine ⟨?_, ?_, ?_, ?_⟩
  · intro hu hl
    refine List.mem_filterMap.mpr ⟨(x, 2 * k), hpos, ?_⟩
    simp only [composeAt, if_pos (And.intro hu hl), hhalf]
  · intro hu hl
    refine List.mem_filterMap.mpr ⟨(x, 2 * k), hpos, ?_⟩
    have hcond : ¬ (128 ≤ pixelAlpha b x (2 * k) ∧ 128 ≤ pixelAlpha b x (2 * k + 1)) := by
      intro hboth; exact hl hboth.2
    simp only [composeAt, if_neg hcond, if_pos hu, hhalf]
  · intro hu hl
    refine List.mem_filterMap.mpr ⟨(x, 2 * k), hpos, ?_⟩
    have hcond : ¬ (128 ≤ pixelAlpha b x (2 * k) ∧ 128 ≤ pixelAlpha b x (2 * k + 1)) := by
      intro hboth; exact hu hboth.1
    simp only [composeAt, if_neg hcond, if_neg hu, if_pos hl, hhalf]
  · intro hu hl c hc hcxy
    obtain ⟨p, hp, hstep⟩ := List.mem_filterMap.mp hc
    obtain ⟨hp1, k1, hk1, hp2⟩ := pairPositions_mem_elim hp
    obtain ⟨hcx, hcy⟩ := composeAt_coords hstep
    have hk1v : c.y = k1 := by rw [hcy, hp2]; omega
    have hpx : p.1 = x := by rw [← hcx]; exact hcxy.1
    have hpk : k1 = k := by rw [← hk1v]; exact hcxy.2
    rw [hpk] at hp2
    have hpeq : p = (x, 2 * k) := by
      cases p with
      | mk a bb => simp_all
    rw [hpeq] at hstep
    have hcond : ¬ (128 ≤ pixelAlpha b x (2 * k) ∧ 128 ≤ pixelAlpha b x (2 * k + 1)) := by
      intro hboth; exact hu hboth.1
    simp only [composeAt, if_neg hcond, if_neg hu, if_neg hl] at hstep
    exact Option.noConfusion hstep

/-- Concrete buffer for the c1 witness: one column, one row pair, RGBA, upper
pixel opaque (alpha 200), lower pixel transparent (alpha 10). -/
def c1WitnessBuf : PixelBuffer :=
  ⟨1, 2, 4, fun i => if i = 3 then 200 else if i = 7 then 10 else 5⟩

/-- Witness for c1_compositor_cases at a concrete buffer: the upper-opaque-only
case emits the upper-half-block cell with only a foreground style. -/
theorem c1_compositor_cases_witness :
    (⟨0, 0, UPPER_HALF_BLOCK, pixelFg c1WitnessBuf 0 0⟩ : Cell) ∈ imageToData c1WitnessBuf := by
  have h := (c1_compositor_cases c1WitnessBuf (Or.inr rfl) (by decide) 0 0
    (by decide) (by decide)).2.1 (by decide) (by decide)
  simpa using h

/-- C2: on an all-opaque buffer every pair position yields a cell, so, amended
with the proviso that width * (height / 2) stays within the 100000-cell safety
ceiling, compose emits exactly width * (height / 2) cells, all of them
upper-half-block glyphs. -/
theorem c2_all_opaque_count (b : PixelBuffer)
    (hop : ∀ x < b.width, ∀ y < b.height, 128 ≤ pixelAlpha b x y)
    (hcap : b.width * (b.height / 2) ≤ maxCells) :
    (imageToData b).length = b.width * (b.height / 2) ∧
    ∀ c ∈ imageToData b, c.char = UPPER_HALF_BLOCK := by
  rw [imageToData_eq_filterMap b hcap]
  have hsome : ∀ p ∈ pairPositions b.width b.height,
      ((fun p : Nat × Nat => composeAt b p.1 p.2) p).isSome := by
    intro p hp
    obtain ⟨hp1, k1, hk1, hp2⟩ := pairPositions_mem_elim hp
    have hyb : p.2 < b.height := by omega
    have hyb1 : p.2 + 1 < b.height := by omega
    have hu := hop p.1 hp1 p.2 hyb
    have hl := hop p.1 hp1 (p.2 + 1) hyb1
    simp only [composeAt, if_pos (And.intro hu hl), Option.isSome_some]
  constructor
  · rw [length_filterMap_of_isSome _ _ hsome, pairPositions_length, Nat.mul_comm]
  · intro c hc
    obtain ⟨p, hp, hstep⟩ := List.mem_filterMap.mp hc
    obtain ⟨hp1, k1, hk1, hp2⟩ := pairPositions_mem_elim hp
    have hyb : p.2 < b.height := by omega
    have hyb1 : p.2 + 1 < b.height := by omega
    exact composeAt_char_of_opaque (hop p.1 hp1 p.2 hyb) (hop p.1 hp1 (p.2 + 1) hyb1) hstep

/-- Concrete buffer for the c2 witness: 2 by 2, three channels, all pixels
implicitly opaque. -/
def c2WitnessBuf : PixelBuffer := ⟨2, 2, 3, fun _ => 7⟩

/-- Witness for c2_all_opaque_count: the 2 by 2 RGB buffer composes to exactly
2 cells, all upper-half-block. -/
theorem c2_all_opaque_count_witness :
    (imageToData c2WitnessBuf).length = c2WitnessBuf.width * (c2WitnessBuf.height / 2) ∧
    ∀ c ∈ imageToData c2WitnessBuf, c.char = UPPER_HALF_BLOCK :=
  c2_all_opaque_count c2WitnessBuf (by decide) (by decide)

/-- Pixel buffer whose candidate cell count 100001 exceeds the safety ceiling:
100001 by 2, three channels (hence every pixel opaque), all bytes zero. -/
def hugeBuf : PixelBuffer := ⟨100001, 2, 3, fun _ => 0⟩

/-- Counterexample to C2 as stated: hugeBuf is all-opaque, yet imageToData
emits 100000 cells, not width * (height / 2) = 100001 - the safety ceiling
truncates the output. -/
theorem c2_counterexample :
    (∀ x < hugeBuf.width, ∀ y < hugeBuf.height, 128 ≤ pixelAlpha hugeBuf x y) ∧
    (imageToData hugeBuf).length ≠ hugeBuf.width * (hugeBuf.height / 2) := by
  constructor
  · intro x _ y _
    simp [pixelAlpha, hugeBuf]
  · have hle := imageToData_length_le hugeBuf
    have hval : hugeBuf.width * (hugeBuf.height / 2) = 100001 := rfl
    rw [hval]
    simp only [maxCells] at hle
    omega

/-- The style string shared by every cell of hugeBuf. -/
def hugeBufStyle : String := fgStyle 0 0 0 ++ bgStyle 0 0 0

/-- On hugeBuf, the untruncated stream is one cell per column of row pair 0. -/
theorem hugeBuf_stream :
    (pairPositions hugeBuf.width hugeBuf.height).filterMap
        (fun p => composeAt hugeBuf p.1 p.2)
      = (List.range 100001).map
          (fun x => (⟨x, 0, UPPER_HALF_BLOCK, hugeBufStyle⟩ : Cell)) := by
  have hpp : pairPositions hugeBuf.width hugeBuf.height
      = (List.range 100001).map (fun x => (x, 0)) := by
    show (List.range 1).flatMap _ = _
    rw [show List.range 1 = [0] from rfl]
    simp only [List.flatMap_cons, List.flatMap_nil, List.append_nil, Nat.mul_zero]
    rfl
  rw [hpp, List.filterMap_map]
  have hfun : ((fun p : Nat × Nat => composeAt hugeBuf p.1 p.2) ∘ fun x => (x, 0))
      = some ∘ fun x => (⟨x, 0, UPPER_HALF_BLOCK, hugeBufStyle⟩ : Cell) := by
    funext x
    show composeAt hugeBuf x 0 = some (⟨x, 0, UPPER_HALF_BLOCK, hugeBufStyle⟩ : Cell)
    rfl
  rw [hfun, List.filterMap_eq_map]

/-- Counterexample to C1 as stated: in hugeBuf, column 100000 of row pair 0 is
both-opaque and in range, yet no cell at (100000, 0) is emitted - the 100000th
push hits the safety ceiling one column earlier and imageToData returns. -/
theorem c1_counterexample :
    128 ≤ pixelAlpha hugeBuf 100000 (2 * 0) ∧
    128 ≤ pixelAlpha hugeBuf 100000 (2 * 0 + 1) ∧
    100000 < hugeBuf.width ∧ 2 * 0 + 1 ≤ hugeBuf.height - 1 ∧
    ∀ c ∈ imageToData hugeBuf, ¬ (c.x = 100000 ∧ c.y = 0) := by
  refine ⟨by decide, by decide, by decide, by decide, ?_⟩
  intro c hc hxy
  rw [imageToData_eq_take, hugeBuf_stream, ← List.map_take, List.take_range] at hc
  have hmin : min maxCells 100001 = 100000 := by decide
  rw [hmin] at hc
  obtain ⟨x, hxmem, hxc⟩ := List.mem_map.mp hc
  have hxlt : x < 100000 := List.mem_range.mp hxmem
  have : c.x = x := by rw [← hxc]
  omega

/-! ## Directory listing (TerminalGUI.getMediaFiles, src/run.js lines 273-313) -/

/-- The SUPPORTED_EXTENSIONS constant of src/run.js. -/
def SUPPORTED_EXTENSIONS : List String :=
  [".jpg", ".jpeg", ".png", ".gif", ".bmp", ".webp", ".tiff", ".tga", ".svg"]

/-- path.extname on a bare filename: the suffix from the last dot, empty when
there is no dot or the only role of the dot is to lead a dotfile. -/
def extnameCore (cs : List Char) : List Char :=
  let afterDot := cs.reverse.takeWhile fun c => c ≠ '.'
  if afterDot.length = cs.length then []
  else if cs.length - afterDot.length - 1 = 0 then []
  else '.' :: afterDot.reverse

/-- path.extname lifted to strings. -/
def extname (s : String) : String := ⟨extnameCore s.data⟩

/-- String.prototype.toLowerCase, modelled character by character. -/
def jsToLowerCase (s : String) : String := ⟨s.data.map Char.toLower⟩

/-- TerminalGUI.isMediaFile: the lowercased extension is a supported one. -/
def isMediaFile (filename : String) : Bool :=
  SUPPORTED_EXTENSIONS.contains (jsToLowerCase (extname filename))

/-- One raw entry of the external directory listing (fs.readdirSync plus
fs.statSync): name, directory flag, byte size. -/
structure RawEntry where
  name : String
  isDirectory : Bool
  size : Nat

/-- One item as built by getMediaFiles. -/
structure Item where
  name : String
  path : String
  type : String
  size : Nat
  extension : String
deriving DecidableEq

/-- path.join of the current directory and an entry name. -/
def pathJoin (dir file : String) : String := dir ++ "/" ++ file

/-- Loop body of getMediaFiles: skip dot entries, keep directories, keep media
files, drop everything else. -/
def toItem (dir : String) (e : RawEntry) : Option Item :=
  if e.name = "." ∨ e.name = ".." then none
  else if e.isDirectory then
    some ⟨e.name, pathJoin dir e.name, "directory", 0, ""⟩
  else if isMediaFile e.name then
    some ⟨e.name, pathJoin dir e.name, "file", e.size, jsToLowerCase (extname e.name)⟩
  else none

/-- The sort comparator of getMediaFiles: directories first, then
name.localeCompare(name).  The locale comparison lc is host behaviour and is a
parameter of the model. -/
def compareItems (lc : String → String → Int) (a b : Item) : Int :=
  if a.type ≠ b.type then
    if a.type = "directory" then -1 else 1
  else lc a.name b.name

/-- Stable insertion of one element behind every already-placed element that
does not compare after it; models one step of the stable Array sort. -/
def jsSortInsert {α : Type} (cmp : α → α → Int) (x : α) : List α → List α
  | [] => [x]
  | y :: ys => if cmp y x ≤ 0 then y :: jsSortInsert cmp x ys else x :: y :: ys

/-- Stable comparator sort, modelling Array.prototype.sort: elements are
inserted in input order, each behind its equals. -/
def jsSort {α : Type} (cmp : α → α → Int) (l : List α) : List α :=
  l.foldl (fun acc y => jsSortInsert cmp y acc) []

/-- TerminalGUI.getMediaFiles: filter the raw listing to directories and media
files, then sort directories-first and by locale-compared name within each
kind. -/
def getMediaFiles (lc : String → String → Int) (dir : String)
    (listing : List RawEntry) : List Item :=
  jsSort (compareItems lc) (listing.filterMap (toItem dir))

/-- Modelled from the spec: the locale-aware name ordering (the host
String.prototype.localeCompare, which lives outside src/), modelled as
codepoint-lexicographic comparison returning -1, 0 or 1. -/
def lexCompareChars : List Char → List Char → Int
  | [], [] => 0
  | [], _ :: _ => -1
  | _ :: _, [] => 1
  | a :: as, b :: bs =>
    if a.toNat < b.toNat then -1
    else if b.toNat < a.toNat then 1
    else lexCompareChars as bs

/-- Modelled from the spec: localeCompare on strings. -/
def localeCompareModel (s t : String) : Int := lexCompareChars s.data t.data

/-! ## Sorting lemmas -/

/-- Membership in an insertion step. -/
theorem mem_jsSortInsert {α : Type} {cmp : α → α → Int} {x a : α} :
    ∀ {l : List α}, a ∈ jsSortInsert cmp x l ↔ a = x ∨ a ∈ l := by
  intro l
  induction l with
  | nil => simp [jsSortInsert]
  | cons y ys ih =>
    by_cases h : cmp y x ≤ 0
    · simp only [jsSortInsert, if_pos h, List.mem_cons, ih]
      tauto
    · simp only [jsSortInsert, if_neg h, List.mem_cons]

/-- Membership in the sorted list is membership in the input. -/
theorem mem_jsSort {α : Type} {cmp : α → α → Int} {a : α} {l : List α} :
    a ∈ jsSort cmp l ↔ a ∈ l := by
  suffices h : ∀ (l acc : List α),
      a ∈ l.foldl (fun acc y => jsSortInsert cmp y acc) acc ↔ a ∈ acc ∨ a ∈ l by
    have := h l []
    simpa [jsSort] using this
  intro l
  induction l with
  | nil => intro acc; simp
  | cons y ys ih =>
    intro acc
    rw [List.foldl_cons, ih, mem_jsSortInsert]
    simp only [List.mem_cons]
    tauto

/-- Insertion preserves pairwise sortedness by the comparator, given
transitivity and totality of the comparator against the list. -/
theorem pairwise_jsSortInsert {α : Type} {cmp : α → α → Int} {x : α}
    (htr : ∀ a b c, cmp a b ≤ 0 → cmp b c ≤ 0 → cmp a c ≤ 0) :
    ∀ {l : List α}, (∀ y ∈ l, cmp x y ≤ 0 ∨ cmp y x ≤ 0) →
      l.Pairwise (fun a b => cmp a b ≤ 0) →
      (jsSortInsert cmp x l).Pairwise (fun a b => cmp a b ≤ 0) := by
  intro l
  induction l with
  | nil => intro _ _; simp [jsSortInsert]
  | cons y ys ih =>
    intro htot hp
    rw [List.pairwise_cons] at hp
    by_cases h : cmp y x ≤ 0
    · rw [jsSortInsert, if_pos h, List.pairwise_cons]
      constructor
      · intro z hz
        rcases mem_jsSortInsert.mp hz with rfl | hz2
        · exact h
        · exact hp.1 z hz2
      · exact ih (fun z hz => htot z (List.mem_cons_of_mem _ hz)) hp.2
    · rw [jsSortInsert, if_neg h, List.pairwise_cons]
      have hxy : cmp x y ≤ 0 := by
        rcases htot y (List.mem_cons_self y ys) with h1 | h1
        · exact h1
        · exact absurd h1 h
      constructor
      · intro z hz
        rcases List.mem_cons.mp hz with rfl | hz2
        · exact hxy
        · exact htr x y z hxy (hp.1 z hz2)
      · rw [List.pairwise_cons]
        exact hp

/-- The stable sort is pairwise ordered by the comparator whenever the
comparator is transitive and total on the elements being sorted. -/
theorem pairwise_jsSort {α : Type} {cmp : α → α → Int} {l : List α}
    (htr : ∀ a b c, cmp a b ≤ 0 → cmp b c ≤ 0 → cmp a c ≤ 0)
    (htot : ∀ a ∈ l, ∀ b ∈ l, cmp a b ≤ 0 ∨ cmp b a ≤ 0) :
    (jsSort cmp l).Pairwise (fun a b => cmp a b ≤ 0) := by
  suffices h : ∀ (rest acc : List α),
      (∀ a, (a ∈ acc ∨ a ∈ rest) → ∀ b, (b ∈ acc ∨ b ∈ rest) →
        cmp a b ≤ 0 ∨ cmp b a ≤ 0) →
      acc.Pairwise (fun a b => cmp a b ≤ 0) →
      (rest.foldl (fun acc y => jsSortInsert cmp y acc) acc).Pairwise
        (fun a b => cmp a b ≤ 0) by
    apply h l []
    · intro a ha b hb
      simp only [List.not_mem_nil, false_or] at ha hb
      exact htot a ha b hb
    · exact List.Pairwise.nil
  intro rest
  induction rest with
  | nil => intro acc _ hacc; exact hacc
  | cons y ys ih =>
    intro acc htot2 hacc
    rw [List.foldl_cons]
    apply ih
    · intro a ha b hb
      apply htot2
      · rcases ha with ha | ha
        · rcases mem_jsSortInsert.mp ha with rfl | h2
          · exact Or.inr (List.mem_cons_self _ _)
          · exact Or.inl h2
        · exact Or.inr (List.mem_cons_of_mem _ ha)
      · rcases hb with hb | hb
        · rcases mem_jsSortInsert.mp hb with rfl | h2
          · exact Or.inr (List.mem_cons_self _ _)
          · exact Or.inl h2
        · exact Or.inr (List.mem_cons_of_mem _ hb)
    · apply pairwise_jsSortInsert htr _ hacc
      intro z hz
      have h1 := htot2 y (Or.inr (List.mem_cons_self _ _)) z (Or.inl hz)
      tauto

/-- The getMediaFiles comparator is transitive whenever the locale comparison
is. -/
theorem compareItems_trans (lc : String → String → Int)
    (htr : ∀ s t u, lc s t ≤ 0 → lc t u ≤ 0 → lc s u ≤ 0) :
    ∀ a b c : Item, compareItems lc a b ≤ 0 → compareItems lc b c ≤ 0 →
      compareItems lc a c ≤ 0 := by
  intro a b c hab hbc
  unfold compareItems at hab hbc ⊢
  split_ifs at hab hbc ⊢ <;>
    first
    | omega
    | exact htr _ _ _ hab hbc
    | simp_all

/-- The getMediaFiles comparator is total on directory/file items whenever the
locale comparison is total. -/
theorem compareItems_total (lc : String → String → Int)
    (htot : ∀ s t, lc s t ≤ 0 ∨ lc t s ≤ 0) (a b : Item)
    (ha : a.type = "directory" ∨ a.type = "file")
    (hb : b.type = "directory" ∨ b.type = "file") :
    compareItems lc a b ≤ 0 ∨ compareItems lc b a ≤ 0 := by
  unfold compareItems
  rcases ha with ha | ha <;> rcases hb with hb | hb
  · rw [if_neg (show ¬ a.type ≠ b.type from by rw [ha, hb]; exact fun h => h rfl),
      if_neg (show ¬ b.type ≠ a.type from by rw [ha, hb]; exact fun h => h rfl)]
    exact htot _ _
  · left
    rw [if_pos (show a.type ≠ b.type from by rw [ha, hb]; decide), if_pos ha]
    decide
  · right
    rw [if_pos (show b.type ≠ a.type from by rw [ha, hb]; decide), if_pos hb]
    decide
  · rw [if_neg (show ¬ a.type ≠ b.type from by rw [ha, hb]; exact fun h => h rfl),
      if_neg (show ¬ b.type ≠ a.type from by rw [ha, hb]; exact fun h => h rfl)]
    exact htot _ _

/-- Every item built by getMediaFiles is tagged directory or file. -/
theorem toItem_type {dir : String} {e : RawEntry} {it : Item}
    (h : toItem dir e = some it) : it.type = "directory" ∨ it.type = "file" := by
  unfold toItem at h
  split_ifs at h <;> (cases h; simp)

/-- Scenario listing of C3: files b.txt and a.png plus subdirectory Sub, in
raw readdir order. -/
def c3Listing : List RawEntry :=
  [⟨"b.txt", false, 0⟩, ⟨"a.png", false, 0⟩, ⟨"Sub", true, 0⟩]

/-- C3: after the listing is rebuilt, directories come before files and each
kind is ordered by the locale comparison (stated for any transitive, total
locale comparison); amended scenario: the directory with files b.txt and a.png
and subdirectory Sub lists as Sub then a.png only, because the non-media file
b.txt is filtered out before sorting. -/
theorem c3_sorted_listing (lc : String → String → Int)
    (htot : ∀ s t, lc s t ≤ 0 ∨ lc t s ≤ 0)
    (htr : ∀ s t u, lc s t ≤ 0 → lc t u ≤ 0 → lc s u ≤ 0)
    (dir : String) (listing : List RawEntry) :
    (getMediaFiles lc dir listing).Pairwise
      (fun a b => (a.type = "directory" ∧ b.type = "file") ∨
        (a.type = b.type ∧ lc a.name b.name ≤ 0)) ∧
    (getMediaFiles lc "d" c3Listing).map Item.name = ["Sub", "a.png"] := by
  constructor
  · have htypes : ∀ it ∈ listing.filterMap (toItem dir),
        it.type = "directory" ∨ it.type = "file" := by
      intro it hit
      obtain ⟨e, _, he⟩ := List.mem_filterMap.mp hit
      exact toItem_type he
    have hpw : (getMediaFiles lc dir listing).Pairwise
        (fun a b => compareItems lc a b ≤ 0) := by
      apply pairwise_jsSort (compareItems_trans lc htr)
      intro a ha b hb
      exact compareItems_total lc htot a b (htypes a ha) (htypes b hb)
    apply hpw.imp_of_mem
    intro a b ha hb hab
    have ha2 := htypes a (mem_jsSort.mp ha)
    have hb2 := htypes b (mem_jsSort.mp hb)
    unfold compareItems at hab
    rcases ha2 with hta | hta <;> rcases hb2 with htb | htb
    · right
      rw [if_neg (by rw [hta, htb]; simp)] at hab
      exact ⟨hta.trans htb.symm, hab⟩
    · left; exact ⟨hta, htb⟩
    · rw [if_pos (by rw [hta, htb]; decide), if_neg (by rw [hta]; decide)] at hab
      omega
    · right
      rw [if_neg (by rw [hta, htb]; simp)] at hab
      exact ⟨hta.trans htb.symm, hab⟩
  · rfl

/-- Counterexample to C3 as stated: the scenario directory does not list as
Sub, a.png, b.txt - getMediaFiles drops b.txt entirely because .txt is not a
supported media extension. -/
theorem c3_counterexample :
    ¬ ((getMediaFiles localeCompareModel "d" c3Listing).map Item.name
        = ["Sub", "a.png", "b.txt"]) := by decide

/-- Witness for c3_sorted_listing at the constant-zero locale comparison and
the scenario listing. -/
theorem c3_sorted_listing_witness :
    (getMediaFiles (fun _ _ => 0) "d" c3Listing).Pairwise
      (fun a b => (a.type = "directory" ∧ b.type = "file") ∨
        (a.type = b.type ∧ (fun _ _ => (0 : Int)) a.name b.name ≤ 0)) ∧
    (getMediaFiles (fun _ _ => 0) "d" c3Listing).map Item.name = ["Sub", "a.png"] :=
  c3_sorted_listing (fun _ _ => 0) (fun _ _ => Or.inl (le_refl (0 : Int)))
    (fun _ _ _ _ _ => le_refl (0 : Int)) "d" c3Listing

/-! ## Activation debouncer (TerminalGUI.handleEnterKey, src/run.js lines
1301-1323, and TerminalGUI.handleLeftMouseClick, lines 1275-1295) -/

/-- The double-click intent fragment of TerminalGUI state: lastClickTime
(initially 0) and lastClickTarget (initially null). -/
structure ClickState where
  lastClickTime : Int
  lastClickTarget : Option String
deriving DecidableEq

/-- The doubleClickThreshold constant (milliseconds). -/
def doubleClickThreshold : Int := 500

/-- TerminalGUI.handleEnterKey as a state transition: given the selected
item's path and the current time, either perform the open action and clear the
intent (returned flag true), or record the intent (flag false). -/
def handleEnterKey (st : ClickState) (selectedPath : String) (now : Int) :
    ClickState × Bool :=
  if st.lastClickTarget = some selectedPath ∧
      now - st.lastClickTime < doubleClickThreshold then
    (⟨0, none⟩, true)
  else
    (⟨now, some selectedPath⟩, false)

/-- TerminalGUI.handleLeftMouseClick as a state transition: identical debounce
logic to handleEnterKey. -/
def handleLeftMouseClick (st : ClickState) (selectedPath : String) (now : Int) :
    ClickState × Bool :=
  if st.lastClickTarget = some selectedPath ∧
      now - st.lastClickTime < doubleClickThreshold then
    (⟨0, none⟩, true)
  else
    (⟨now, some selectedPath⟩, false)

/-- C4: from a state not armed for the entry, the first activation (Enter or
left click) only records intent; a second activation of the same entry less
than 500ms later performs exactly one open action and clears the intent, while
a second activation 600ms later only re-records intent and opens nothing. -/
theorem c4_activation_debounce (st0 : ClickState) (p : String) (t1 t2 t3 : Int)
    (h0 : st0.lastClickTarget ≠ some p) :
    (handleEnterKey st0 p t1).2 = false ∧
    (handleEnterKey st0 p t1).1 = ⟨t1, some p⟩ ∧
    (handleLeftMouseClick st0 p t1).2 = false ∧
    (handleLeftMouseClick st0 p t1).1 = ⟨t1, some p⟩ ∧
    (t2 - t1 < 500 →
      (handleEnterKey (handleEnterKey st0 p t1).1 p t2).2 = true ∧
      (handleEnterKey (handleEnterKey st0 p t1).1 p t2).1 = ⟨0, none⟩ ∧
      (handleLeftMouseClick (handleLeftMouseClick st0 p t1).1 p t2).2 = true ∧
      (handleLeftMouseClick (handleLeftMouseClick st0 p t1).1 p t2).1 = ⟨0, none⟩) ∧
    (t3 - t1 = 600 →
      (handleEnterKey (handleEnterKey st0 p t1).1 p t3).2 = false ∧
      (handleEnterKey (handleEnterKey st0 p t1).1 p t3).1 = ⟨t3, some p⟩ ∧
      (handleLeftMouseClick (handleLeftMouseClick st0 p t1).1 p t3).2 = false ∧
      (handleLeftMouseClick (handleLeftMouseClick st0 p t1).1 p t3).1 = ⟨t3, some p⟩) := by
  have hcond : ¬ (st0.lastClickTarget = some p ∧
      t1 - st0.lastClickTime < doubleClickThreshold) := fun h => h0 h.1
  have h1e : handleEnterKey st0 p t1 = (⟨t1, some p⟩, false) := by
    rw [handleEnterKey, if_neg hcond]
  have h1m : handleLeftMouseClick st0 p t1 = (⟨t1, some p⟩, false) := by
    rw [handleLeftMouseClick, if_neg hcond]
  refine ⟨by rw [h1e], by rw [h1e], by rw [h1m], by rw [h1m], ?_, ?_⟩
  · intro hlt
    have hcond2 : (some p : Option String) = some p ∧
        t2 - t1 < doubleClickThreshold := ⟨rfl, by unfold doubleClickThreshold; omega⟩
    rw [h1e, h1m]
    rw [show handleEnterKey ⟨t1, some p⟩ p t2 = (⟨0, none⟩, true) from by
      rw [handleEnterKey, if_pos hcond2]]
    rw [show handleLeftMouseClick ⟨t1, some p⟩ p t2 = (⟨0, none⟩, true) from by
      rw [handleLeftMouseClick, if_pos hcond2]]
    exact ⟨rfl, rfl, rfl, rfl⟩
  · intro heq
    have hcond3 : ¬ ((some p : Option String) = some p ∧
        t3 - t1 < doubleClickThreshold) := by
      intro h
      have := h.2
      unfold doubleClickThreshold at this
      omega
    rw [h1e, h1m]
    rw [show handleEnterKey ⟨t1, some p⟩ p t3 = (⟨t3, some p⟩, false) from by
      rw [handleEnterKey, if_neg hcond3]]
    rw [show handleLeftMouseClick ⟨t1, some p⟩ p t3 = (⟨t3, some p⟩, false) from by
      rw [handleLeftMouseClick, if_neg hcond3]]
    exact ⟨rfl, rfl, rfl, rfl⟩

/-- Witness for c4_activation_debounce from the initial state: a double
activation at 100ms and 400ms opens once, and one at 100ms and 700ms does
not open. -/
theorem c4_activation_debounce_witness :
    (handleEnterKey (⟨0, none⟩ : ClickState) "d/a.png" 100).2 = false ∧
    (handleEnterKey (handleEnterKey (⟨0, none⟩ : ClickState) "d/a.png" 100).1
      "d/a.png" 400).2 = true ∧
    (handleEnterKey (handleEnterKey (⟨0, none⟩ : ClickState) "d/a.png" 100).1
      "d/a.png" 700).2 = false := by
  have h := c4_activation_debounce ⟨0, none⟩ "d/a.png" 100 400 700 (by decide)
  exact ⟨h.1, (h.2.2.2.2.1 (by decide)).1, (h.2.2.2.2.2 (by decide)).1⟩

/-! ## Grid layout and scrolling (TerminalGUI.calculateGridDimensions, lines
408-439; TerminalGUI.scrollGrid, lines 874-901; TerminalGUI.handleScrollWheel,
lines 1228-1273; TerminalGUI.refresh, lines 951-956 of src/run.js) -/

/-- The browsing-state fragment used by grid layout, scrolling and refresh.
All values are JavaScript numbers, modelled as Int. -/
structure GuiState where
  terminalWidth : Int
  maxDisplayLines : Int
  filesLen : Int
  selectedIndex : Int
  scrollOffset : Int
deriving DecidableEq

/-- Result record of calculateGridDimensions.  The useTripleText flag is
stored on the object in the source; it is returned here so that it can be
inspected. -/
structure GridDims where
  columns : Int
  rows : Int
  gapWidth : Int
  totalWidth : Int
  totalHeight : Int
  itemWidth : Int
  itemHeight : Int
  useTripleText : Bool
deriving DecidableEq

/-- Math.floor of an integer quotient: floor division. -/
def jsFloorDiv (a b : Int) : Int := Int.fdiv a b

/-- Math.ceil of an integer quotient. -/
def jsCeilDiv (a b : Int) : Int := -(Int.fdiv (-a) b)

/-- TerminalGUI.calculateGridDimensions. -/
def calculateGridDimensions (terminalWidth filesLen : Int) : GridDims :=
  let gapWidth : Int := 2
  let availableWidth := terminalWidth - 2
  let minImageWidth : Int := 32
  let columns := jsFloorDiv availableWidth (minImageWidth + gapWidth)
  let actualColumns := max 1 columns
  let rows := jsCeilDiv filesLen actualColumns
  let totalWidth := actualColumns * minImageWidth + (actualColumns - 1) * gapWidth
  let tripleItemHeight : Int := 19
  let normalItemHeight : Int := 17
  let useTripleText := decide (500 ≤ minImageWidth * tripleItemHeight)
  let itemHeight := if useTripleText then tripleItemHeight else normalItemHeight
  ⟨actualColumns, rows, gapWidth, totalWidth, rows * itemHeight, minImageWidth,
    itemHeight, useTripleText⟩

/-- The maximum grid scroll offset recomputed by scrollGrid (in item index
units): max(0, rows - actualVisibleRows) * columns. -/
def gridMaxScrollOffset (st : GuiState) : Int :=
  let dims := calculateGridDimensions st.terminalWidth st.filesLen
  let maxVisibleRows := jsFloorDiv st.maxDisplayLines dims.itemHeight
  let actualVisibleRows := min maxVisibleRows dims.rows
  let maxScrollRows := max 0 (dims.rows - actualVisibleRows)
  maxScrollRows * dims.columns

/-- The largest item index drawn by drawGridView: the viewport shows
actualVisibleRows rows of columns items starting at scrollOffset. -/
def lastVisibleIndex (st : GuiState) : Int :=
  let dims := calculateGridDimensions st.terminalWidth st.filesLen
  let maxVisibleRows := jsFloorDiv st.maxDisplayLines dims.itemHeight
  let actualVisibleRows := min maxVisibleRows dims.rows
  st.scrollOffset + actualVisibleRows * dims.columns - 1

/-- TerminalGUI.scrollGrid: move the scroll offset by one row of columns,
clamped, then pull selectedIndex into the window
[scrollOffset, scrollOffset + maxDisplayLines * columns - 1]. -/
def scrollGrid (st : GuiState) (direction : Int) : GuiState :=
  let dims := calculateGridDimensions st.terminalWidth st.filesLen
  let maxVisibleRows := jsFloorDiv st.maxDisplayLines dims.itemHeight
  let actualVisibleRows := min maxVisibleRows dims.rows
  let maxScrollRows := max 0 (dims.rows - actualVisibleRows)
  let maxScrollOffset := maxScrollRows * dims.columns
  let scrollAmount := dims.columns
  let so := if direction = -1 then max 0 (st.scrollOffset - scrollAmount)
            else min maxScrollOffset (st.scrollOffset + scrollAmount)
  let maxVisibleIndex := so + st.maxDisplayLines * dims.columns - 1
  let minVisibleIndex := so
  let si := if st.selectedIndex < minVisibleIndex then minVisibleIndex
            else if maxVisibleIndex < st.selectedIndex then maxVisibleIndex
            else st.selectedIndex
  { st with scrollOffset := so, selectedIndex := si }

/-- The grid branch of TerminalGUI.handleScrollWheel: textually the same
computation as scrollGrid. -/
def handleScrollWheelGrid (st : GuiState) (direction : Int) : GuiState :=
  let dims := calculateGridDimensions st.terminalWidth st.filesLen
  let maxVisibleRows := jsFloorDiv st.maxDisplayLines dims.itemHeight
  let actualVisibleRows := min maxVisibleRows dims.rows
  let maxScrollRows := max 0 (dims.rows - actualVisibleRows)
  let maxScrollOffset := maxScrollRows * dims.columns
  let scrollAmount := dims.columns
  let so := if direction = -1 then max 0 (st.scrollOffset - scrollAmount)
            else min maxScrollOffset (st.scrollOffset + scrollAmount)
  let maxVisibleIndex := so + st.maxDisplayLines * dims.columns - 1
  let minVisibleIndex := so
  let si := if st.selectedIndex < minVisibleIndex then minVisibleIndex
            else if maxVisibleIndex < st.selectedIndex then maxVisibleIndex
            else st.selectedIndex
  { st with scrollOffset := so, selectedIndex := si }

/-- TerminalGUI.refresh: rebuild the listing (its new length is newLen), clamp
selectedIndex to min(previous, newLen - 1) and scrollOffset to
min(previous, max(0, newLen - maxDisplayLines)). -/
def refresh (st : GuiState) (newLen : Int) : GuiState :=
  { st with
      filesLen := newLen,
      selectedIndex := min st.selectedIndex (newLen - 1),
      scrollOffset := min st.scrollOffset (max 0 (newLen - st.maxDisplayLines)) }

/-! ## Layout and navigation theorems -/

/-- C8: the grid layout computes columns as
max(1, floor((terminalWidth - 2) / (tileWidth + gapWidth))) with tileWidth 32
and gapWidth 2, hence at least one column for every terminal width (however
small or negative) and every item count. -/
theorem c8_columns_formula (terminalWidth filesLen : Int) :
    (calculateGridDimensions terminalWidth filesLen).columns
      = max 1 (jsFloorDiv (terminalWidth - 2) (32 + 2)) ∧
    1 ≤ (calculateGridDimensions terminalWidth filesLen).columns :=
  ⟨rfl, le_max_left _ _⟩

/-- C9: the area threshold 32 * 19 is at least 500, a constant-true test, so
calculateGridDimensions always selects the triple-line layout and always
returns itemHeight 19; the single-line 17 branch is unreachable. -/
theorem c9_triple_text_constant (terminalWidth filesLen : Int) :
    (calculateGridDimensions terminalWidth filesLen).useTripleText = true ∧
    (calculateGridDimensions terminalWidth filesLen).itemHeight = 19 :=
  ⟨rfl, rfl⟩

/-- Counterexample state for C5: terminal width 80, maxDisplayLines 19 (a
24-row terminal), 10 items, selection on item 9, scroll at 0. -/
def c5State : GuiState := ⟨80, 19, 10, 9, 0⟩

/-- Counterexample to C5 as stated: one scroll-down moves scrollOffset to 2;
the viewport then actually displays only indices 2..3 (one visible row of two
columns, lastVisibleIndex 3), yet selectedIndex 9 is left outside that range
because the code clamps against scrollOffset + maxDisplayLines * columns - 1 =
40 instead of the displayed range. -/
theorem c5_counterexample :
    (scrollGrid c5State 1).scrollOffset = 2 ∧
    (scrollGrid c5State 1).selectedIndex = 9 ∧
    lastVisibleIndex (scrollGrid c5State 1) = 3 ∧
    ¬ ((scrollGrid c5State 1).selectedIndex
        ≤ lastVisibleIndex (scrollGrid c5State 1)) := by decide

/-- C5 amended: an explicit grid scroll step (scroll mode or scroll wheel)
moves scrollOffset by direction * columns clamped to [0, maxScrollOffset], and
clamps selectedIndex into
[scrollOffset, scrollOffset + maxDisplayLines * columns - 1] (the code's
window, which can exceed the rows actually displayed); the wheel handler's
grid branch computes exactly the scroll-mode step. -/
theorem c5_scrollGrid_clamps (st : GuiState) (direction : Int)
    (hdir : direction = 1 ∨ direction = -1)
    (hmdl : 1 ≤ st.maxDisplayLines)
    (hso0 : 0 ≤ st.scrollOffset)
    (hsoM : st.scrollOffset ≤ gridMaxScrollOffset st) :
    (scrollGrid st direction).scrollOffset
      = max 0 (min (gridMaxScrollOffset st)
          (st.scrollOffset + direction *
            (calculateGridDimensions st.terminalWidth st.filesLen).columns)) ∧
    (scrollGrid st direction).selectedIndex
      = max (scrollGrid st direction).scrollOffset
          (min ((scrollGrid st direction).scrollOffset
              + st.maxDisplayLines *
                (calculateGridDimensions st.terminalWidth st.filesLen).columns - 1)
            st.selectedIndex) ∧
    handleScrollWheelGrid st direction = scrollGrid st direction := by
  have hc : (1 : Int) ≤ (calculateGridDimensions st.terminalWidth st.filesLen).columns :=
    le_max_left _ _
  have hM0 : 0 ≤ gridMaxScrollOffset st :=
    mul_nonneg (le_max_left _ _) (by linarith)
  have hP : 1 ≤ st.maxDisplayLines *
      (calculateGridDimensions st.terminalWidth st.filesLen).columns := by
    calc (1 : Int) = 1 * 1 := by ring
      _ ≤ st.maxDisplayLines *
            (calculateGridDimensions st.terminalWidth st.filesLen).columns :=
        mul_le_mul hmdl hc zero_le_one (by linarith)
  rcases hdir with rfl | rfl
  · have e1 : (scrollGrid st 1).scrollOffset
        = min (gridMaxScrollOffset st) (st.scrollOffset +
            (calculateGridDimensions st.terminalWidth st.filesLen).columns) := rfl
    have e2 : (scrollGrid st 1).selectedIndex
        = (if st.selectedIndex < (scrollGrid st 1).scrollOffset then
            (scrollGrid st 1).scrollOffset
          else if (scrollGrid st 1).scrollOffset + st.maxDisplayLines *
              (calculateGridDimensions st.terminalWidth st.filesLen).columns - 1
              < st.selectedIndex then
            (scrollGrid st 1).scrollOffset + st.maxDisplayLines *
              (calculateGridDimensions st.terminalWidth st.filesLen).columns - 1
          else st.selectedIndex) := rfl
    refine ⟨?_, ?_, rfl⟩
    · rw [e1, one_mul]
      omega
    · rw [e2, e1]
      generalize st.maxDisplayLines *
        (calculateGridDimensions st.terminalWidth st.filesLen).columns = P at hP ⊢
      omega
  · have e1 : (scrollGrid st (-1)).scrollOffset
        = max 0 (st.scrollOffset -
            (calculateGridDimensions st.terminalWidth st.filesLen).columns) := rfl
    have e2 : (scrollGrid st (-1)).selectedIndex
        = (if st.selectedIndex < (scrollGrid st (-1)).scrollOffset then
            (scrollGrid st (-1)).scrollOffset
          else if (scrollGrid st (-1)).scrollOffset + st.maxDisplayLines *
              (calculateGridDimensions st.terminalWidth st.filesLen).columns - 1
              < st.selectedIndex then
            (scrollGrid st (-1)).scrollOffset + st.maxDisplayLines *
              (calculateGridDimensions st.terminalWidth st.filesLen).columns - 1
          else st.selectedIndex) := rfl
    refine ⟨?_, ?_, rfl⟩
    · rw [e1, neg_one_mul]
      have : st.scrollOffset + -(calculateGridDimensions st.terminalWidth st.filesLen).columns
          = st.scrollOffset - (calculateGridDimensions st.terminalWidth st.filesLen).columns := by
        ring
      rw [this]
      omega
    · rw [e2, e1]
      generalize st.maxDisplayLines *
        (calculateGridDimensions st.terminalWidth st.filesLen).columns = P at hP ⊢
      omega

/-- Witness for c5_scrollGrid_clamps at the concrete counterexample state. -/
theorem c5_scrollGrid_clamps_witness :
    (scrollGrid c5State 1).scrollOffset
      = max 0 (min (gridMaxScrollOffset c5State)
          (c5State.scrollOffset + 1 *
            (calculateGridDimensions c5State.terminalWidth c5State.filesLen).columns)) ∧
    (scrollGrid c5State 1).selectedIndex
      = max (scrollGrid c5State 1).scrollOffset
          (min ((scrollGrid c5State 1).scrollOffset
              + c5State.maxDisplayLines *
                (calculateGridDimensions c5State.terminalWidth c5State.filesLen).columns - 1)
            c5State.selectedIndex) ∧
    handleScrollWheelGrid c5State 1 = scrollGrid c5State 1 :=
  c5_scrollGrid_clamps c5State 1 (Or.inl rfl) (by decide) (by decide) (by decide)

/-- C10: after refresh, a non-empty listing leaves selectedIndex at
min(previous, newLen - 1), inside [0, newLen - 1]; an empty listing drives
selectedIndex to -1 while scrollOffset is clamped to 0. -/
theorem c10_refresh_clamps (st : GuiState) (newLen : Int)
    (hsel : 0 ≤ st.selectedIndex) (hscr : 0 ≤ st.scrollOffset)
    (hmdl : 0 ≤ st.maxDisplayLines) :
    (1 ≤ newLen →
      (refresh st newLen).selectedIndex = min st.selectedIndex (newLen - 1) ∧
      0 ≤ (refresh st newLen).selectedIndex ∧
      (refresh st newLen).selectedIndex ≤ newLen - 1) ∧
    (newLen = 0 →
      (refresh st newLen).selectedIndex = -1 ∧
      (refresh st newLen).scrollOffset = 0) := by
  have e1 : (refresh st newLen).selectedIndex = min st.selectedIndex (newLen - 1) := rfl
  have e2 : (refresh st newLen).scrollOffset
      = min st.scrollOffset (max 0 (newLen - st.maxDisplayLines)) := rfl
  constructor
  · intro h
    refine ⟨e1, ?_, ?_⟩ <;> rw [e1] <;> omega
  · intro h
    subst h
    rw [e1, e2]
    constructor <;> omega

/-- Witness for c10_refresh_clamps: refreshing to an empty listing from
selection 5 and scroll 2 yields selectedIndex -1 and scrollOffset 0. -/
theorem c10_refresh_clamps_witness :
    (refresh (⟨80, 19, 7, 5, 2⟩ : GuiState) 0).selectedIndex = -1 ∧
    (refresh (⟨80, 19, 7, 5, 2⟩ : GuiState) 0).scrollOffset = 0 :=
  (c10_refresh_clamps ⟨80, 19, 7, 5, 2⟩ 0 (by decide) (by decide) (by decide)).2 rfl

/-! ## Gallery sub-state (ImageGallerySlider, src/run.js lines 9-213) -/

/-- The navigation-relevant fragment of ImageGallerySlider state: the number
of images, currentIndex, scrollOffset, the composed image height and the
terminal height. -/
structure GalleryState where
  numImages : Int
  currentIndex : Int
  scrollOffset : Int
  imageHeight : Int
  terminalHeight : Int
deriving DecidableEq

/-- One gallery input. For the arrow keys that change image, decodeOk records
whether the decode of the new image succeeds and newHeight the height of the
newly composed grid. -/
inductive GalleryEvent where
  | leftArrow (decodeOk : Bool) (newHeight : Int)
  | rightArrow (decodeOk : Bool) (newHeight : Int)
  | upArrow
  | downArrow
deriving DecidableEq

/-- ImageGallerySlider.showCurrentImage: on success the freshly composed image
height is stored and scrollOffset resets to 0; on decode failure the state is
left as it was (the catch branch only prints the help panel). -/
def showCurrentImage (st : GalleryState) (decodeOk : Bool) (newHeight : Int) :
    GalleryState :=
  if decodeOk then { st with imageHeight := newHeight, scrollOffset := 0 } else st

/-- The handleKey navigation cases of ImageGallerySlider.setupNavigation:
left/right arrows move currentIndex by one without wraparound and re-show, up
and down arrows scroll by one clamped to [0, max(0, imageHeight -
(terminalHeight - 6))]. -/
def galleryHandleKey (st : GalleryState) (e : GalleryEvent) : GalleryState :=
  match e with
  | .leftArrow ok h =>
    if 0 < st.currentIndex then
      showCurrentImage { st with currentIndex := st.currentIndex - 1 } ok h
    else st
  | .rightArrow ok h =>
    if st.currentIndex < st.numImages - 1 then
      showCurrentImage { st with currentIndex := st.currentIndex + 1 } ok h
    else st
  | .upArrow =>
    if 0 < st.scrollOffset then
      { st with scrollOffset := max 0 (st.scrollOffset - 1) }
    else st
  | .downArrow =>
    let availableHeight := st.terminalHeight - 6
    let maxScrollOffset := max 0 (st.imageHeight - availableHeight)
    if st.scrollOffset < maxScrollOffset then
      { st with scrollOffset := min maxScrollOffset (st.scrollOffset + 1) }
    else st

/-- The C7 invariant: currentIndex within [0, numImages - 1] and scrollOffset
within [0, max(0, imageHeight - (terminalHeight - 6))]. -/
def galleryInv (st : GalleryState) : Prop :=
  0 ≤ st.currentIndex ∧ st.currentIndex ≤ st.numImages - 1 ∧
  0 ≤ st.scrollOffset ∧
  st.scrollOffset ≤ max 0 (st.imageHeight - (st.terminalHeight - 6))

instance (st : GalleryState) : Decidable (galleryInv st) := by
  unfold galleryInv
  infer_instance

/-- C7: while the gallery is active over a non-empty image list, every gallery
input step (previous, next, scroll up, scroll down) preserves the invariant:
no index wraparound at either end and the image scroll offset stays within
[0, max(0, composed height - (terminalHeight - 6))]. -/
theorem c7_gallery_invariant (st : GalleryState) (e : GalleryEvent)
    (_hn : 1 ≤ st.numImages) (hinv : galleryInv st) :
    galleryInv (galleryHandleKey st e) := by
  obtain ⟨h1, h2, h3, h4⟩ := hinv
  cases e with
  | leftArrow ok h =>
    unfold galleryInv galleryHandleKey showCurrentImage
    cases ok <;> split_ifs <;> refine ⟨?_, ?_, ?_, ?_⟩ <;> (try simp) <;> omega
  | rightArrow ok h =>
    unfold galleryInv galleryHandleKey showCurrentImage
    cases ok <;> split_ifs <;> refine ⟨?_, ?_, ?_, ?_⟩ <;> (try simp) <;> omega
  | upArrow =>
    unfold galleryInv galleryHandleKey
    split_ifs <;> refine ⟨?_, ?_, ?_, ?_⟩ <;> (try simp) <;> omega
  | downArrow =>
    simp only [galleryInv, galleryHandleKey]
    split_ifs <;> refine ⟨?_, ?_, ?_, ?_⟩ <;> (try simp) <;> omega

/-- Witness for c7_gallery_invariant: moving right from index 1 of 3 with a
successfully composed 40-row image on a 24-row terminal keeps the
invariant. -/
theorem c7_gallery_invariant_witness :
    galleryInv (galleryHandleKey ⟨3, 1, 0, 10, 24⟩ (.rightArrow true 40)) :=
  c7_gallery_invariant ⟨3, 1, 0, 10, 24⟩ (.rightArrow true 40) (by decide) (by decide)

/-! ## Mouse event decoding (TerminalGUI.handleMouseEvent, src/run.js lines
1044-1077).  The raw key string is modelled as its list of characters. -/

/-- The escape character. -/
def esc : Char := '\x1b'

/-- String.prototype.split with separator ; as used on the parameter block of
the variable mouse encoding. -/
def splitSemi : List Char → List (List Char)
  | [] => [[]]
  | c :: rest =>
    if c = ';' then [] :: splitSemi rest
    else
      match splitSemi rest with
      | [] => [[c]]
      | g :: gs => (c :: g) :: gs

/-- The digit run at the head of a character list, as a number; none when the
first character is not a digit. -/
def parseDigits (cs : List Char) : Option Nat :=
  let ds := cs.takeWhile fun c => c.isDigit
  if ds.isEmpty then none
  else some (ds.foldl (fun acc c => acc * 10 + (c.toNat - 48)) 0)

/-- parseInt on a decimal parameter: optional sign then leading digits; none
models NaN. -/
def jsParseInt (cs : List Char) : Option Int :=
  match cs with
  | '-' :: rest => (parseDigits rest).map fun n => -(n : Int)
  | '+' :: rest => (parseDigits rest).map fun n => (n : Int)
  | _ => (parseDigits cs).map fun n => (n : Int)

/-- The button/x/y extraction of handleMouseEvent: the fixed 6-byte encoding
ESC [ M b x y (each code offset by 32), else the variable encoding
ESC [ p1;p2;p3 M (parameters offset by 32), else the raw fallback read of
character codes 3..5; none models the silent early returns and NaN reads. -/
def decodeMouseTriple (data : List Char) : Option (Int × Int × Int) :=
  if data.take 3 = [esc, '[', 'M'] then
    match data[3]?, data[4]?, data[5]? with
    | some b, some x, some y =>
      some ((b.toNat : Int) - 32, (x.toNat : Int) - 32, (y.toNat : Int) - 32)
    | _, _, _ => none
  else if data.take 2 = [esc, '['] ∧ 'M' ∈ data then
    match splitSemi (data.drop 2).dropLast with
    | p1 :: p2 :: p3 :: _ =>
      match jsParseInt p1, jsParseInt p2, jsParseInt p3 with
      | some b, some x, some y => some (b - 32, x - 32, y - 32)
      | _, _, _ => none
    | _ => none
  else if 6 ≤ data.length then
    match data[3]?, data[4]?, data[5]? with
    | some b, some x, some y =>
      some ((b.toNat : Int) - 32, (x.toNat : Int) - 32, (y.toNat : Int) - 32)
    | _, _, _ => none
  else none

/-- The action handleMouseEvent takes on a decoded triple: scroll wheel for
the four scroll button codes, a press hit-test otherwise, nothing when
decoding fails. -/
inductive MouseAction where
  | scrollWheel (delta : Int)
  | press (button x y : Int)
  | ignored
deriving DecidableEq

/-- The dispatch of handleMouseEvent: buttons 64/65/96/97 scroll (64 and 96
up, 65 and 97 down), other buttons fall through to the press handling. -/
def handleMouseEvent (data : List Char) : MouseAction :=
  match decodeMouseTriple data with
  | none => MouseAction.ignored
  | some (button, x, y) =>
    if button = 64 ∨ button = 65 ∨ button = 96 ∨ button = 97 then
      MouseAction.scrollWheel (if button = 64 ∨ button = 96 then -1 else 1)
    else MouseAction.press button x y

/-- splitSemi peels a separator-free prefix up to the first semicolon. -/
theorem splitSemi_append {s : List Char} (h : ';' ∉ s) (rest : List Char) :
    splitSemi (s ++ ';' :: rest) = s :: splitSemi rest := by
  induction s with
  | nil => simp [splitSemi]
  | cons c s ih =>
    have hc : ¬ c = ';' := fun hh => h (hh ▸ List.mem_cons_self c s)
    have hs : ';' ∉ s := fun hh => h (List.mem_cons_of_mem c hh)
    rw [List.cons_append, splitSemi, if_neg hc, ih hs]

/-- splitSemi of a separator-free list is that list alone. -/
theorem splitSemi_of_not_mem {s : List Char} (h : ';' ∉ s) :
    splitSemi s = [s] := by
  induction s with
  | nil => rfl
  | cons c s ih =>
    have hc : ¬ c = ';' := fun hh => h (hh ▸ List.mem_cons_self c s)
    have hs : ';' ∉ s := fun hh => h (List.mem_cons_of_mem c hh)
    rw [splitSemi, if_neg hc, ih hs]

/-- C6: the fixed 6-byte mouse report ESC [ M b x y decodes to the three
codes each minus 32; the variable form ESC [ p1;p2;p3 M decodes to the three
parsed parameters each minus 32; and the synonym button pairs 64/96 and 65/97
dispatch to the identical scroll-up respectively scroll-down action. -/
theorem c6_mouse_decoding :
    (∀ b x y : Char,
      decodeMouseTriple [esc, '[', 'M', b, x, y]
        = some ((b.toNat : Int) - 32, (x.toNat : Int) - 32, (y.toNat : Int) - 32)) ∧
    (∀ (p1 p2 p3 : List Char) (b x y : Int),
      ';' ∉ p1 → ';' ∉ p2 → ';' ∉ p3 → 'M' ∉ p1 →
      jsParseInt p1 = some b → jsParseInt p2 = some x → jsParseInt p3 = some y →
      decodeMouseTriple (esc :: '[' :: (p1 ++ (';' :: (p2 ++ (';' :: (p3 ++ ['M']))))))
        = some (b - 32, x - 32, y - 32)) ∧
    (∀ (data : List Char) (b x y : Int),
      decodeMouseTriple data = some (b, x, y) →
      ((b = 64 ∨ b = 96) → handleMouseEvent data = MouseAction.scrollWheel (-1)) ∧
      ((b = 65 ∨ b = 97) → handleMouseEvent data = MouseAction.scrollWheel 1)) := by
  refine ⟨?_, ?_, ?_⟩
  · intro b x y
    rfl
  · intro p1 p2 p3 b x y hs1 hs2 hs3 hM1 hp1 hp2 hp3
    cases p1 with
    | nil => simp [jsParseInt, parseDigits] at hp1
    | cons c p1 =>
      have hcM : ¬ c = 'M' := fun hh => hM1 (hh ▸ List.mem_cons_self c p1)
      have hfirst :
          ¬ ((esc :: '[' :: ((c :: p1) ++ (';' :: (p2 ++ (';' :: (p3 ++ ['M'])))))).take 3
            = [esc, '[', 'M']) := by
        show ¬ ([esc, '[', c] = [esc, '[', 'M'])
        simp [hcM]
      have hsecond :
          (esc :: '[' :: ((c :: p1) ++ (';' :: (p2 ++ (';' :: (p3 ++ ['M'])))))).take 2
              = [esc, '['] ∧
            'M' ∈ esc :: '[' :: ((c :: p1) ++ (';' :: (p2 ++ (';' :: (p3 ++ ['M']))))) := by
        refine ⟨rfl, ?_⟩
        simp
      rw [decodeMouseTriple, if_neg hfirst, if_pos hsecond]
      have hdrop :
          ((esc :: '[' :: ((c :: p1) ++ (';' :: (p2 ++ (';' :: (p3 ++ ['M'])))))).drop 2).dropLast
            = (c :: p1) ++ (';' :: (p2 ++ (';' :: p3))) := by
        show ((c :: p1) ++ (';' :: (p2 ++ (';' :: (p3 ++ ['M']))))).dropLast = _
        have hre : (c :: p1) ++ (';' :: (p2 ++ (';' :: (p3 ++ ['M']))))
            = ((c :: p1) ++ (';' :: (p2 ++ (';' :: p3)))) ++ ['M'] := by
          simp
        rw [hre, List.dropLast_concat]
      rw [hdrop, splitSemi_append hs1, splitSemi_append hs2, splitSemi_of_not_mem hs3]
      simp [hp1, hp2, hp3]
  · intro data b x y h
    unfold handleMouseEvent
    rw [h]
    constructor
    · rintro (rfl | rfl) <;> simp
    · rintro (rfl | rfl) <;> simp

/-- Witness for c6_mouse_decoding: the 6-byte report with codes 35, 33, 34
decodes to button 3 at column 1 row 2; the variable report 96;33;34 decodes to
button 64 at (1, 2); and that report scrolls up. -/
theorem c6_mouse_decoding_witness :
    decodeMouseTriple [esc, '[', 'M', '#', '!', '"']
      = some (3, 1, 2) ∧
    decodeMouseTriple (esc :: '[' ::
        (['9', '6'] ++ (';' :: (['3', '3'] ++ (';' :: (['3', '4'] ++ ['M']))))))
      = some (64, 1, 2) ∧
    handleMouseEvent (esc :: '[' ::
        (['9', '6'] ++ (';' :: (['3', '3'] ++ (';' :: (['3', '4'] ++ ['M']))))))
      = MouseAction.scrollWheel (-1) := by
  have hvar := c6_mouse_decoding.2.1 ['9', '6'] ['3', '3'] ['3', '4'] 96 33 34
    (by decide) (by decide) (by decide) (by decide) (by decide) (by decide) (by decide)
  refine ⟨?_, ?_, ?_⟩
  · have h6 := c6_mouse_decoding.1 '#' '!' '"'
    simpa using h6
  · simpa using hvar
  · exact (c6_mouse_decoding.2.2 _ 64 1 2 (by simpa using hvar)).1 (Or.inl rfl)
